import Mathlib

/-!
# Verification of the poker-cards library (`src/lib.rs`)

A shallow embedding of the Rust crate's three types (`Suit`, `Rank`, `Card`),
their `TryFrom<&str>` parsers, and the two-tier ordering on ranks and cards.

Rust strings are modelled as `List Char`; `str::len` is the UTF-8 byte length
(`byteLen`).  Operations that can panic in Rust are modelled in `Option`, with
`none` standing for a panic: `str::split_at` panics when the split index is not
a character boundary (`splitAtByte` returns `none` there), and
`Option::unwrap` panics on `None` (the corresponding arm of `Rank.try_from`
returns `none`).  Fallible parsing returns `Except String`, mirroring
`Result<_, String>`; Rust's `Ordering` is Lean's `Ordering`.
-/

deriving instance DecidableEq for Except

namespace PokerCards

/-- UTF-8 byte length of a string, as Rust's `str::len`. -/
def byteLen (s : List Char) : Nat := (s.map Char.utf8Size).sum

/-- Model of `str::split_at mid`: splits at byte index `mid`.  Returns `none`
when `mid` is past the end or not on a character boundary — the cases where
Rust panics. -/
def splitAtByte : Nat → List Char → Option (List Char × List Char)
  | 0, s => some ([], s)
  | _ + 1, [] => none
  | i + 1, c :: cs =>
    if c.utf8Size ≤ i + 1 then
      match splitAtByte (i + 1 - c.utf8Size) cs with
      | some (a, b) => some (c :: a, b)
      | none => none
    else none

/-- Model of `char::to_digit(c, 10)`: the value of an ASCII decimal digit. -/
def to_digit10 (c : Char) : Option Nat :=
  if '0' ≤ c ∧ c ≤ '9' then some (c.toNat - '0'.toNat) else none

/-- `Suit` enum from `src/lib.rs`. -/
inductive Suit where
  | Clubs
  | Hearts
  | Diamonds
  | Spades
deriving DecidableEq, BEq

/-- `impl Default for Suit`. -/
def Suit.default : Suit := .Spades

/-- `impl TryFrom<&str> for Suit`.  Note the error text of the source reads
`invalid rank: {}` even though this is the suit parser. -/
def Suit.try_from (s : List Char) : Except String Suit :=
  if s = ['C'] then .ok .Clubs
  else if s = ['H'] then .ok .Hearts
  else if s = ['D'] then .ok .Diamonds
  else if s = ['S'] then .ok .Spades
  else .error ("invalid rank: " ++ s.asString)

/-- `Rank` enum from `src/lib.rs`.  The `Spot` payload is a `u8` in Rust; it
is modelled as `Nat` (the parser only produces 2–9, and every claim about
`Spot` constrains the payload to 2–9, well below the `u8` range). -/
inductive Rank where
  | Ace
  | King
  | Queen
  | Jack
  | Ten
  | Spot (n : Nat)
deriving DecidableEq, BEq

/-- `impl Default for Rank`. -/
def Rank.default : Rank := .Ace

/-- `impl From<Rank> for u8`: the numeric projection. -/
def u8_from : Rank → Nat
  | .Ace => 14
  | .King => 13
  | .Queen => 12
  | .Jack => 11
  | .Ten => 10
  | .Spot n => n

/-- The ranks representable by the Rust enum with `Spot` payload in 2–9,
the range the claims and the parser use. -/
def Rank.valid : Rank → Prop
  | .Spot n => 2 ≤ n ∧ n ≤ 9
  | _ => True

instance : DecidablePred Rank.valid := by
  intro r
  cases r <;> simp [Rank.valid] <;> infer_instance

/-- `impl TryFrom<&str> for Rank`.  The `match` arms for the five letter codes
come first; the default arm checks empty, the literal `10`, the byte-length
bound, and finally the single digit.  `s.chars().next().unwrap()` is the one
panic source: its `None` case is the `[]` arm returning `none`. -/
def Rank.try_from (s : List Char) : Option (Except String Rank) :=
  if s = ['A'] then some (.ok .Ace)
  else if s = ['K'] then some (.ok .King)
  else if s = ['Q'] then some (.ok .Queen)
  else if s = ['J'] then some (.ok .Jack)
  else if s = ['T'] then some (.ok .Ten)
  else if s.isEmpty then some (.error "empty rank")
  else if s = ['1', '0'] then some (.ok .Ten)
  else if 2 ≤ byteLen s then some (.error ("overlong rank: " ++ s.asString))
  else
    match s with
    | [] => none
    | r :: _ =>
      match to_digit10 r with
      | some d =>
        if 2 ≤ d then some (.ok (.Spot d))
        else some (.error ("invalid rank " ++ s.asString))
      | none => some (.error ("invalid rank " ++ s.asString))

/-- `impl PartialOrd<Rank> for Rank`. -/
def Rank.partial_cmp (a b : Rank) : Option Ordering :=
  match a, b with
  | .Ace, .Ace => some .eq
  | .Ace, _ => none
  | _, .Ace => none
  | c1, c2 => some (compare (u8_from c1) (u8_from c2))

/-- `impl Ord for Rank`. -/
def Rank.cmp (a b : Rank) : Ordering := compare (u8_from a) (u8_from b)

/-- `Card` struct from `src/lib.rs`. -/
structure Card where
  rank : Rank
  suit : Suit
deriving DecidableEq

/-- `impl TryFrom<&str> for Card`.  Checks the byte length, splits one byte
before the end (`split_at` panics — `none` — off a character boundary), and
propagates a sub-parser's error unchanged, as the `?` operator does. -/
def Card.try_from (s : List Char) : Option (Except String Card) :=
  let ns := byteLen s
  if ns < 2 ∨ 3 < ns then
    some (.error ("invalid card description length: " ++ s.asString))
  else
    match splitAtByte (ns - 1) s with
    | none => none
    | some (rs, ss) =>
      match Rank.try_from rs with
      | none => none
      | some (.error e) => some (.error e)
      | some (.ok rank) =>
        match Suit.try_from ss with
        | .error e => some (.error e)
        | .ok suit => some (.ok ⟨rank, suit⟩)

/-- `impl PartialEq<Card> for Card`: both fields must match. -/
def Card.eq (a b : Card) : Bool := a.rank == b.rank && a.suit == b.suit

/-- `impl PartialOrd<Card> for Card`: delegates to the ranks. -/
def Card.partial_cmp (a b : Card) : Option Ordering :=
  Rank.partial_cmp a.rank b.rank

/-- `impl Ord for Card`: delegates to the ranks. -/
def Card.cmp (a b : Card) : Ordering := Rank.cmp a.rank b.rank

/-- `Rank.partial_cmp` unfolded on a pair of non-Ace ranks. -/
theorem partial_cmp_non_ace (x y : Rank) (hx : x ≠ .Ace) (hy : y ≠ .Ace) :
    Rank.partial_cmp x y = some (compare (u8_from x) (u8_from y)) := by
  cases x <;> cases y <;> simp_all [Rank.partial_cmp]

/-- The intuitive strength order on ranks, written out from the spec's
listing: spot cards by their number, then Ten, Jack, Queen, King, and Ace on
top (the spec's ace-high reading).  Defined independently of `u8_from` so
that monotonicity of the numeric projection is a real comparison. -/
def strongerThan : Rank → Rank → Prop
  | .Spot m, .Spot n => n < m
  | .Spot _, _ => False
  | .Ten, .Spot _ => True
  | .Ten, _ => False
  | .Jack, .Spot _ => True
  | .Jack, .Ten => True
  | .Jack, _ => False
  | .Queen, .Ace => False
  | .Queen, .King => False
  | .Queen, .Queen => False
  | .Queen, _ => True
  | .King, .Ace => False
  | .King, .King => False
  | .King, _ => True
  | .Ace, .Ace => False
  | .Ace, _ => True

/-- C1: for every pair of ranks, `partial_cmp` yields `some .eq` when both are
Ace, `none` when exactly one is Ace, and `some` of the comparison of the
numeric projections otherwise.  (Proved for all payloads, so in particular for
`Spot` payloads in 2–9.) -/
theorem partial_cmp_ace_law (x y : Rank) :
    (x = .Ace ∧ y = .Ace → Rank.partial_cmp x y = some .eq) ∧
    ((x = .Ace ∧ y ≠ .Ace) ∨ (x ≠ .Ace ∧ y = .Ace) →
      Rank.partial_cmp x y = none) ∧
    (x ≠ .Ace → y ≠ .Ace →
      Rank.partial_cmp x y = some (compare (u8_from x) (u8_from y))) := by
  refine ⟨?_, ?_, partial_cmp_non_ace x y⟩
  · rintro ⟨rfl, rfl⟩; rfl
  · rintro (⟨rfl, hy⟩ | ⟨hx, rfl⟩)
    · cases y <;> simp_all [Rank.partial_cmp]
    · cases x <;> simp_all [Rank.partial_cmp]

/-- Witness for C1: the three cases of `partial_cmp_ace_law` at concrete
ranks. -/
theorem partial_cmp_ace_law_w :
    Rank.partial_cmp .Ace .Ace = some .eq ∧
    Rank.partial_cmp .Ace .King = none ∧
    Rank.partial_cmp .King .Queen = some (compare (u8_from .King) (u8_from .Queen)) :=
  ⟨(partial_cmp_ace_law .Ace .Ace).1 ⟨rfl, rfl⟩,
   (partial_cmp_ace_law .Ace .King).2.1 (.inl ⟨rfl, by decide⟩),
   (partial_cmp_ace_law .King .Queen).2.2 (by decide) (by decide)⟩

/-- Counterexample to C2's closing clause: on the pair (Ace, Ace) — a pair
involving Ace — the partial order AGREES with the total order
(`partial_cmp Ace Ace = some (cmp Ace Ace) = some .eq`), so the two orders do
not disagree on every pair involving Ace. -/
theorem partial_total_agree_on_ace_pair :
    Rank.partial_cmp .Ace .Ace = some (Rank.cmp .Ace .Ace) := by decide

/-- C2 (amended): `cmp Ace r = .gt` for every valid non-Ace `r`, and the
total and partial orders disagree exactly on the pairs in which exactly one
element is Ace (not on all pairs involving Ace: they agree on (Ace, Ace)). -/
theorem cmp_ace_law (r x y : Rank) (hv : r.valid) (hr : r ≠ .Ace) :
    Rank.cmp .Ace r = .gt ∧
    (Rank.partial_cmp x y = some (Rank.cmp x y) ↔
      ¬((x = .Ace ∧ y ≠ .Ace) ∨ (x ≠ .Ace ∧ y = .Ace))) := by
  constructor
  · cases r <;> simp_all [Rank.cmp, u8_from, Rank.valid, Nat.compare_eq_gt]
    omega
  · cases x <;> cases y <;>
      simp_all [Rank.partial_cmp, Rank.cmp, u8_from, compare, compareOfLessAndEq]

/-- Witness for C2: `cmp_ace_law` at r = King, (x, y) = (Ace, King). -/
theorem cmp_ace_law_w :
    Rank.cmp .Ace .King = .gt ∧
    (Rank.partial_cmp .Ace .King = some (Rank.cmp .Ace .King) ↔
      ¬((Rank.Ace = .Ace ∧ Rank.King ≠ .Ace) ∨
        (Rank.Ace ≠ .Ace ∧ Rank.King = .Ace))) :=
  cmp_ace_law .King .Ace .King trivial (by decide)

/-- C3: both card comparators delegate to the corresponding rank comparator
on the two cards' ranks, and neither consults the suits. -/
theorem card_cmp_delegates (c1 c2 : Card) (s1 s2 : Suit) :
    Card.cmp c1 c2 = Rank.cmp c1.rank c2.rank ∧
    Card.partial_cmp c1 c2 = Rank.partial_cmp c1.rank c2.rank ∧
    Card.cmp ⟨c1.rank, s1⟩ ⟨c2.rank, s2⟩ = Card.cmp c1 c2 ∧
    Card.partial_cmp ⟨c1.rank, s1⟩ ⟨c2.rank, s2⟩ = Card.partial_cmp c1 c2 :=
  ⟨rfl, rfl, rfl, rfl⟩

/-- C4: rank parsing maps each valid code to its rank, the numeric projection
sends the results to 14, 13, 12, 11, 10, 10, 2–9, and the lone digits 0 and 1
are rejected. -/
theorem rank_parse_round_trip :
    (Rank.try_from ['A'] = some (.ok .Ace) ∧ u8_from .Ace = 14) ∧
    (Rank.try_from ['K'] = some (.ok .King) ∧ u8_from .King = 13) ∧
    (Rank.try_from ['Q'] = some (.ok .Queen) ∧ u8_from .Queen = 12) ∧
    (Rank.try_from ['J'] = some (.ok .Jack) ∧ u8_from .Jack = 11) ∧
    (Rank.try_from ['T'] = some (.ok .Ten) ∧ u8_from .Ten = 10) ∧
    (Rank.try_from ['1', '0'] = some (.ok .Ten) ∧ u8_from .Ten = 10) ∧
    (Rank.try_from ['2'] = some (.ok (.Spot 2)) ∧ u8_from (.Spot 2) = 2) ∧
    (Rank.try_from ['3'] = some (.ok (.Spot 3)) ∧ u8_from (.Spot 3) = 3) ∧
    (Rank.try_from ['4'] = some (.ok (.Spot 4)) ∧ u8_from (.Spot 4) = 4) ∧
    (Rank.try_from ['5'] = some (.ok (.Spot 5)) ∧ u8_from (.Spot 5) = 5) ∧
    (Rank.try_from ['6'] = some (.ok (.Spot 6)) ∧ u8_from (.Spot 6) = 6) ∧
    (Rank.try_from ['7'] = some (.ok (.Spot 7)) ∧ u8_from (.Spot 7) = 7) ∧
    (Rank.try_from ['8'] = some (.ok (.Spot 8)) ∧ u8_from (.Spot 8) = 8) ∧
    (Rank.try_from ['9'] = some (.ok (.Spot 9)) ∧ u8_from (.Spot 9) = 9) ∧
    Rank.try_from ['0'] = some (.error "invalid rank 0") ∧
    Rank.try_from ['1'] = some (.error "invalid rank 1") :=
  ⟨⟨by decide, rfl⟩, ⟨by decide, rfl⟩, ⟨by decide, rfl⟩, ⟨by decide, rfl⟩,
   ⟨by decide, rfl⟩, ⟨by decide, rfl⟩, ⟨by decide, rfl⟩, ⟨by decide, rfl⟩,
   ⟨by decide, rfl⟩, ⟨by decide, rfl⟩, ⟨by decide, rfl⟩, ⟨by decide, rfl⟩,
   ⟨by decide, rfl⟩, ⟨by decide, rfl⟩, by decide, by decide⟩

/-- C5 evaluated: lengths outside 2–3 give the length error, sub-parser
errors come back verbatim, but the 3-byte input `aé` (length check passes)
panics in `split_at` — byte 2 is not a character boundary — instead of being
split and parsed. -/
theorem card_parse_eval :
    Card.try_from [] = some (.error "invalid card description length: ") ∧
    Card.try_from ['A'] = some (.error "invalid card description length: A") ∧
    Card.try_from ['A', 'B', 'C', 'D'] =
      some (.error "invalid card description length: ABCD") ∧
    Card.try_from ['X', 'H'] = some (.error "invalid rank X") ∧
    Card.try_from ['A', 'X'] = some (.error "invalid rank: X") ∧
    Card.try_from ['1', '0', 'D'] = some (.ok ⟨.Ten, .Diamonds⟩) ∧
    Card.try_from ['a', 'é'] = none := by decide

/-- C6 evaluated: suit parsing succeeds exactly on C, H, D, S, but its error
message reads `invalid rank: …` — it misidentifies the failing stage as the
rank stage (a copy-paste slip in the source). -/
theorem suit_parse_eval :
    Suit.try_from ['C'] = .ok .Clubs ∧
    Suit.try_from ['H'] = .ok .Hearts ∧
    Suit.try_from ['D'] = .ok .Diamonds ∧
    Suit.try_from ['S'] = .ok .Spades ∧
    Suit.try_from ['X'] = .error "invalid rank: X" ∧
    Suit.try_from [] = .error "invalid rank: " := by decide

/-- C7: the empty check and the `10` check come before the length check, so
every string of byte length ≥ 2 other than `10` is rejected as an overlong
rank (never as an invalid rank), and the empty string gets the distinct
empty-rank error. -/
theorem rank_overlong_precedence :
    (∀ s : List Char, 2 ≤ byteLen s → s ≠ ['1', '0'] →
      Rank.try_from s = some (.error ("overlong rank: " ++ s.asString))) ∧
    Rank.try_from [] = some (.error "empty rank") := by
  refine ⟨fun s h2 hne => ?_, by decide⟩
  have hA : s ≠ ['A'] := by rintro rfl; exact absurd h2 (by decide)
  have hK : s ≠ ['K'] := by rintro rfl; exact absurd h2 (by decide)
  have hQ : s ≠ ['Q'] := by rintro rfl; exact absurd h2 (by decide)
  have hJ : s ≠ ['J'] := by rintro rfl; exact absurd h2 (by decide)
  have hT : s ≠ ['T'] := by rintro rfl; exact absurd h2 (by decide)
  have hE : ¬(s.isEmpty = true) := by
    rcases s with _ | ⟨c, t⟩
    · exact absurd h2 (by decide)
    · simp
  rw [Rank.try_from.eq_def, if_neg hA, if_neg hK, if_neg hQ, if_neg hJ,
    if_neg hT, if_neg hE, if_neg hne, if_pos h2]

/-- Witness for C7: the two-character garbage string `XY` is reported as an
overlong rank. -/
theorem rank_overlong_precedence_w :
    Rank.try_from ['X', 'Y'] = some (.error "overlong rank: XY") :=
  rank_overlong_precedence.1 ['X', 'Y'] (by decide) (by decide)

/-- C8 evaluated: rank parsing never reaches its panic point (the `unwrap`
models as `none` and no input produces it), but card parsing does panic: the
2-byte input `é` passes the length check and `split_at(1)` falls inside the
two-byte character, which aborts in Rust — modelled as `none`. -/
theorem parse_totality_and_panic :
    (∀ s : List Char, (Rank.try_from s).isSome = true) ∧
    Card.try_from ['é'] = none := by
  refine ⟨fun s => ?_, by decide⟩
  rcases s with _ | ⟨c, t⟩
  · decide
  · rw [Rank.try_from.eq_def]
    repeat' split
    all_goals simp_all

/-- C9: on ranks with `Spot` payloads in 2–9, the numeric projection is
injective and strictly monotone with the intuitive strength order (spot cards
by number, then Ten, Jack, Queen, King, Ace). -/
theorem u8_from_injective_monotone (x y : Rank) (hx : x.valid) (hy : y.valid) :
    (u8_from x = u8_from y → x = y) ∧
    (strongerThan x y ↔ u8_from y < u8_from x) := by
  cases x <;> cases y <;>
    simp_all [Rank.valid, u8_from, strongerThan] <;> omega

/-- Witness for C9: `u8_from_injective_monotone` at (Spot 9, Ten). -/
theorem u8_from_injective_monotone_w :
    (u8_from (.Spot 9) = u8_from .Ten → (Rank.Spot 9) = .Ten) ∧
    (strongerThan (.Spot 9) .Ten ↔ u8_from .Ten < u8_from (.Spot 9)) :=
  u8_from_injective_monotone (.Spot 9) .Ten
    (show 2 ≤ 9 ∧ 9 ≤ 9 by omega) trivial

/-- C10: two cards with the same rank and different suits compare as equal
under both comparators, yet are not structurally equal. -/
theorem cmp_equal_not_structural_eq :
    ∃ c1 c2 : Card, c1.rank = c2.rank ∧ c1.suit ≠ c2.suit ∧
      Card.cmp c1 c2 = .eq ∧ Card.partial_cmp c1 c2 = some .eq ∧
      Card.eq c1 c2 = false :=
  ⟨⟨.Spot 7, .Clubs⟩, ⟨.Spot 7, .Hearts⟩, rfl, by decide, by decide,
   by decide, by decide⟩

end PokerCards
